import Mathlib

/-!
Verification of the `model` package (a client-side log transport engine's
data model) against its natural-language specification.

The repository's single source file, `model.go`, defines the package-level
constants and the data shapes (`TransportPackage`, `CorrelationData`,
`LogData`, `LogGroup`, `ClientConfig`, server configs and the connection
request/response records).  The pipeline components themselves (Correlator,
Priority Classifier, Dispatcher, Connection Pool Manager, Health Checker)
are described only in the specification, so their operational behaviour is
modelled here from the spec's words; every such definition is marked
`Modelled from the spec:`.  Everything else is a direct embedding of
`model.go`: Go `byte` becomes `Nat` with arithmetic taken `% 256` where it
matters, `uint64` becomes `Nat` taken `% 2 ^ 64`, `int` becomes `Int`,
`time.Time` and `time.Duration` become `Int` (nanoseconds), `error` becomes
`Option String`, `[]byte` becomes `List Nat`, maps become association
lists, and `interface\x7b\x7d` becomes a closed tagged variant (`GoAny`, or
`PackageData` at the pipeline boundary) following the spec's design notes.
-/

namespace Model

/-! ## Package-level constants (model.go, `const` block) -/

/-- Constant `RetryCount` is used in a few hard-coded retries. -/
def RetryCount : Nat := 3

/-- Constant `LevelError` represents a log of 'error' level (`byte(0)`). -/
def LevelError : Nat := 0

/-- Constant `LevelWarn` represents a log of 'warn' level (`byte(1)`). -/
def LevelWarn : Nat := 1

/-- Constant `LevelInfo` represents a log of 'info' level (`byte(2)`). -/
def LevelInfo : Nat := 2

/-- Constant `LevelDebug` represents a log of 'debug' level (`byte(3)`). -/
def LevelDebug : Nat := 3

/-- Constant `TransportPackageTypeLog` represents a package of type 'log' (`byte(0)`). -/
def TransportPackageTypeLog : Nat := 0

/-- Constant `TransportPackageTypeHiPriLog` represents a package of type 'high priority log' (`byte(1)`). -/
def TransportPackageTypeHiPriLog : Nat := 1

/-- Constant `TransportPackageTypeHealhcheck` represents a package of type 'healthcheck' (`byte(2)`). -/
def TransportPackageTypeHealhcheck : Nat := 2

/-- Constant `LogTypeLog` represents a log of type 'log' (`byte(0)`). -/
def LogTypeLog : Nat := 0

/-- Constant `LogTypeAudit` represents a log of type 'audit' (`byte(1)`). -/
def LogTypeAudit : Nat := 1

/-- Constant `ContextTypeID` holds the context type ID. -/
def ContextTypeID : String := "t"

/-- Constant `CorrelationIDField` holds the correlation id field name. -/
def CorrelationIDField : String := "CorrelationID"

/-- Constant `DeliveryMethodClientSpecified` represents a client specified log delivery method (`byte(0)`). -/
def DeliveryMethodClientSpecified : Nat := 0

/-- Constant `DeliveryMethodRoundRobin` represents a round robin log delivery method (`byte(1)`). -/
def DeliveryMethodRoundRobin : Nat := 1

/-! ## Data shapes (model.go structs) -/

/-- Closed tagged variant standing for a Go `interface\x7b\x7d` value held in
generic maps and context slices (the spec's design notes prescribe a closed
variant for dynamic payloads). -/
inductive GoAny where
  | null : GoAny
  | ofString (s : String) : GoAny
  | ofInt (n : Int) : GoAny
  | ofBool (b : Bool) : GoAny
deriving DecidableEq, Repr

/-- Struct `CorrelationData` contains common data related to correlated logs
(`CorrelationID`, `Name`, `Custom map[string]interface\x7b\x7d`). -/
structure CorrelationData where
  CorrelationID : String
  Name : String
  Custom : List (String × GoAny)
deriving DecidableEq, Repr

/-- Struct `LogData` holds log data: timestamp, level (one of `Level*`), type (one
of `LogType*`), weight, message, error, serialized context, an optional
shared `CorrelationData` back-reference (Go `*CorrelationData`, `nil`
becoming `none`), and serialized context maps. -/
structure LogData where
  Timestamp : Int
  Level : Nat
  typ : Nat
  Weight : Int
  Message : String
  Error : Option String
  ContextMap : List GoAny
  CorrelationData : Option CorrelationData
  ContextMaps : List (String × List String)
deriving DecidableEq, Repr

/-- Struct `LogGroup` holds a collection of log data and its common data: a
`*CorrelationData` and the list of logs belonging to this group. -/
structure LogGroup where
  CorrelationData : Option CorrelationData
  Logs : List LogData
deriving DecidableEq, Repr

/-- The `Data interface\x7b\x7d` field of a `TransportPackage`: a package
specific reference to the concrete object — the originating `LogGroup` for
log packages, or a healthcheck marker (closed variant per the spec's design
notes). -/
inductive PackageData where
  | ofLogGroup (g : LogGroup) : PackageData
  | healthcheckMarker : PackageData
deriving DecidableEq, Repr

/-- Struct `TransportPackage` holds data being transported to the server.
`ID`: sequential number (`uint64`); `typ`: one of `TransportPackageType*`
(Go field `Type`, renamed because `Type` is a Lean keyword); `Data`:
package specific reference to the concrete object; `Payload`: `Data`
serialized; `RetryCount`: number of retries executed on this package
(`byte`). -/
structure TransportPackage where
  ID : Nat
  typ : Nat
  Data : PackageData
  Payload : List Nat
  RetryCount : Nat
deriving DecidableEq, Repr

/-- Struct `LoggedData` holds log data that is sent to the logging systems. -/
structure LoggedData where
  typ : Nat
  Weight : Int
  Message : String
  Error : Option String
  Context : List (String × GoAny)
deriving DecidableEq, Repr

/-- Struct `ClientConfig` holds client logging configuration (all fields of the Go
struct, in source order). -/
structure ClientConfig where
  Enabled : Bool
  AppName : String
  Level : Nat
  Endpoint : String
  NumberOfConnections : Int
  NumberOfHiPriConnections : Int
  NumberOfBackupConnections : Int
  NumberOfHiPriBackupConnections : Int
  ConnectionResetInterval : Int
  ChannelSize : Int
  OverflowChannelSize : Int
  OverflowChannelLoggingLevel : Nat
  HipriLoggingLevel : Nat
  HipriChannelSize : Int
  TargetMessageBatchSize : Int
  SendBatchLogsInterval : Int
  CommonLabels : List (String × String)
  ServerConfigGroup : String
  ServerConfigName : String
  HealthCheckInterval : Int
  HealthCheckFailureThreshold : Int
  RequestTrackingTimout : Int
  ConnectionShutdownTimout : Int
  ProjectID : String
  CredentialsFilePath : String
deriving DecidableEq, Repr

/-- Struct `ServerLoggingConfig` holds one server logging configuration. -/
structure ServerLoggingConfig where
  Group : String
  Name : String
  ProjectID : String
  CredentialsFilePath : String
  Level : Nat
  NumberOfWorkers : Int
  MessagesChannelSize : Int
  ShutdownTimeout : Int
deriving DecidableEq, Repr

/-- Struct `ServerLoggingConfigs` holds the server's logging configuration,
including the `DeliveryMethod` (one of `DeliveryMethod*`). -/
structure ServerLoggingConfigs where
  Enabled : Bool
  DefaultConfigGroupName : String
  DefaultConfigName : String
  DeliveryMethod : Nat
  Configs : List ServerLoggingConfig
deriving DecidableEq, Repr

/-- Struct `ServerConfigs` holds the server configuration. -/
structure ServerConfigs where
  ServicePort : Int
  ShutdownTimeout : String
  ReadTimeout : String
  WriteTimeout : String
  Logging : Option ServerLoggingConfigs
deriving DecidableEq, Repr

/-- The Go field identifiers of the `ClientConfig` struct, in source
order (the reflection view of the struct used to reason about which
configuration data the record exposes). -/
def clientConfigFieldNames : List String :=
  ["Enabled", "AppName", "Level", "Endpoint", "NumberOfConnections",
   "NumberOfHiPriConnections", "NumberOfBackupConnections",
   "NumberOfHiPriBackupConnections", "ConnectionResetInterval",
   "ChannelSize", "OverflowChannelSize", "OverflowChannelLoggingLevel",
   "HipriLoggingLevel", "HipriChannelSize", "TargetMessageBatchSize",
   "SendBatchLogsInterval", "CommonLabels", "ServerConfigGroup",
   "ServerConfigName", "HealthCheckInterval", "HealthCheckFailureThreshold",
   "RequestTrackingTimout", "ConnectionShutdownTimout", "ProjectID",
   "CredentialsFilePath"]

/-- The Go field identifiers of the `ServerLoggingConfigs` struct, in
source order. -/
def serverLoggingConfigsFieldNames : List String :=
  ["Enabled", "DefaultConfigGroupName", "DefaultConfigName",
   "DeliveryMethod", "Configs"]

/-! ## Spec-modelled pipeline components

The pipeline logic is not part of `model.go`; the definitions below are
modelled from the specification's component contracts (§4), using the data
shapes and constants above. -/

/-- The three lanes a record/group can be assigned to (§2, §4.2). -/
inductive Lane where
  | normal : Lane
  | hiPri : Lane
  | overflow : Lane
deriving DecidableEq, Repr

/-- Modelled from the spec: the Priority Classifier (§4.2), whose code is
not in the repository.  Given the weighted level of a `LogGroup` (or
ungrouped record), the `ClientConfig` thresholds and whether the target
normal lane is currently saturated, it returns a lane assignment: `hiPri`
if weighted level ≥ `HipriLoggingLevel`, `overflow` if the normal lane is
saturated and level ≥ `OverflowChannelLoggingLevel`, else `normal`. -/
def classify (cfg : ClientConfig) (weightedLevel : Nat) (normalSaturated : Bool) : Lane :=
  if cfg.HipriLoggingLevel ≤ weightedLevel then .hiPri
  else if normalSaturated ∧ cfg.OverflowChannelLoggingLevel ≤ weightedLevel then .overflow
  else .normal

/-! ### Correlator (§4.1) -/

/-- The correlation id carried by a record, if it references a
`CorrelationData`. -/
def recCid (r : LogData) : Option String :=
  r.CorrelationData.map (fun cd => cd.CorrelationID)

/-- The correlation id of a `LogGroup`, if its `CorrelationData` is set. -/
def groupCid (g : LogGroup) : Option String :=
  g.CorrelationData.map (fun cd => cd.CorrelationID)

/-- Whether a group holds the correlation id `c`. -/
def hasCid (c : String) (g : LogGroup) : Bool :=
  groupCid g == some c

/-- Append record `r` to group `g` when `g` holds correlation id `cid`;
leave other groups untouched. -/
def appendIfCid (cid : String) (r : LogData) (g : LogGroup) : LogGroup :=
  if hasCid cid g then { g with Logs := g.Logs ++ [r] } else g

/-- Modelled from the spec: one Correlator step (§4.1), whose code is not
in the repository.  It accepts a `LogRecord` and looks up or creates a
`LogGroup` keyed by correlation id (absent id ⇒ singleton group), appending
the record to the group.  Groups pending flush are the accumulator; the
idle-window sweep never fires within the window, so it does not appear. -/
def correlatorStep (gs : List LogGroup) (r : LogData) : List LogGroup :=
  match r.CorrelationData with
  | none => gs ++ [{ CorrelationData := none, Logs := [r] }]
  | some cd =>
    if gs.any (hasCid cd.CorrelationID) then gs.map (appendIfCid cd.CorrelationID r)
    else gs ++ [{ CorrelationData := some cd, Logs := [r] }]

/-- Modelled from the spec: the Correlator's processing of a submission
sequence within one idle window (§4.1). -/
def correlate (recs : List LogData) : List LogGroup :=
  recs.foldl correlatorStep []

/-- The concatenation, in group order, of the logs of all groups holding
correlation id `c`. -/
def logsOf (c : String) (gs : List LogGroup) : List LogData :=
  gs.foldr (fun g acc => if hasCid c g then g.Logs ++ acc else acc) []

/-! ### Connection health state machine (§4.5, §4.7) -/

/-- Health state of a pooled connection (§3, §4.5). -/
inductive HealthState where
  | Healthy : HealthState
  | Suspect : HealthState
  | Unhealthy : HealthState
deriving DecidableEq, Repr

/-- A pooled connection's health-relevant state: health enum and
consecutive-failure count (§3's Connection entity, not modeled in the
source fragment). -/
structure Conn where
  health : HealthState
  failures : Nat
deriving DecidableEq, Repr

/-- Events driving a connection's health state (§4.5, §4.7). -/
inductive HCEvent where
  | checkFail : HCEvent
  | checkSuccess : HCEvent
  | reset : HCEvent
deriving DecidableEq, Repr

/-- Modelled from the spec: the per-connection health state machine
(§4.5/§4.7), whose code is not in the repository.  A failed healthcheck
(or send) increments the failure count; reaching the threshold of
consecutive failures moves a Healthy/Suspect connection to Unhealthy (a
first failure marks a Healthy connection Suspect).  A successful response
resets the failure count to zero, but an Unhealthy connection returns to
Healthy only after an explicit reset (which reopens it as Suspect with a
clean count) followed by a successful healthcheck. -/
def hcStep (threshold : Nat) (c : Conn) : HCEvent → Conn
  | .checkFail =>
    let f := c.failures + 1
    if threshold ≤ f then { health := .Unhealthy, failures := f }
    else if c.health = .Healthy then { health := .Suspect, failures := f }
    else { c with failures := f }
  | .checkSuccess =>
    if c.health = .Unhealthy then { c with failures := 0 }
    else { health := .Healthy, failures := 0 }
  | .reset =>
    if c.health = .Unhealthy then { health := .Suspect, failures := 0 } else c

/-- Run the health state machine over a sequence of events. -/
def hcRun (threshold : Nat) (c : Conn) (es : List HCEvent) : Conn :=
  es.foldl (hcStep threshold) c

/-! ### Dispatcher (§4.6) -/

/-- Modelled from the spec: round-robin selection of a Healthy connection
in the target pool (§4.5/§4.6).  The pool is viewed as the list of its
connections' health flags (`true` = Healthy); selection scans the indices
starting at the round-robin cursor, wrapping around, and returns the first
Healthy one, or `none` when the pool has no Healthy connection
(`ErrorNoHealthyConnection`). -/
def selectHealthy (pool : List Bool) (start : Nat) : Option Nat :=
  ((List.range pool.length).map (fun k => (start + k) % pool.length)).find?
    (fun i => pool.getD i false)

/-- Phase of a package's dispatch lifecycle (§4.6): still being sent,
delivered, dropped after exhausting retries (`ErrorRetriesExhausted`), or
aborted because no Healthy connection exists
(`ErrorNoHealthyConnection`). -/
inductive DispPhase where
  | sending : DispPhase
  | delivered : DispPhase
  | exhausted : DispPhase
  | noHealthy : DispPhase
deriving DecidableEq, Repr

/-- Dispatch state of one `TransportPackage`: the package (whose
`RetryCount` field is incremented in place on failed attempts), its
lifecycle phase, the number of send attempts performed, the round-robin
cursor, the pool indices of the connections used (one per attempt), and
the number of packages counted as `ErrorRetriesExhausted`. -/
structure DispState where
  pkg : TransportPackage
  phase : DispPhase
  attempts : Nat
  rr : Nat
  usedConns : List Nat
  countedRetriesExhausted : Nat
deriving DecidableEq, Repr

/-- Byte-typed increment: the `RetryCount` field of `TransportPackage` is a
Go `byte`, so incrementing it is arithmetic modulo 256. -/
def incRetry (p : TransportPackage) : TransportPackage :=
  { p with RetryCount := (p.RetryCount + 1) % 256 }

/-- The guarded increment the Dispatcher performs: the counter is only
ever incremented while strictly below the constant `RetryCount` (§4.6). -/
def guardedIncRetry (p : TransportPackage) : TransportPackage :=
  if p.RetryCount < RetryCount then incRetry p else p

/-- Initial dispatch state for a package `p` the Dispatcher has just
created (§3: created immediately before send). -/
def dispInit (p : TransportPackage) : DispState :=
  { pkg := p, phase := .sending, attempts := 0, rr := 0, usedConns := [],
    countedRetriesExhausted := 0 }

/-- Modelled from the spec: one Dispatcher send/retry step for a single
package (§4.6), whose code is not in the repository.  `pool` is the health
view of the target pool and `send k` the outcome of the `k`-th send
attempt.  The step obtains a Healthy connection (failing fast with
`ErrorNoHealthyConnection` if none exists) and sends.  On failure it
increments the package retry counter in place; if still `< RetryCount` the
package is re-queued for immediate retry on a (possibly different) Healthy
connection in the same pool, otherwise it is dropped and counted as
`ErrorRetriesExhausted`.  Terminal phases are absorbing. -/
def dispatchStep (pool : List Bool) (send : Nat → Bool) (s : DispState) : DispState :=
  match s.phase with
  | .sending =>
    match selectHealthy pool s.rr with
    | none => { s with phase := .noHealthy }
    | some i =>
      let t := { s with
        attempts := s.attempts + 1
        usedConns := s.usedConns ++ [i]
        rr := i + 1 }
      if send s.attempts then { t with phase := .delivered }
      else
        let p := incRetry s.pkg
        if p.RetryCount < RetryCount then { t with pkg := p }
        else { t with
          pkg := p
          phase := .exhausted
          countedRetriesExhausted := s.countedRetriesExhausted + 1 }
  | _ => s

/-! ### Per-connection-stream sequence ids (§3, §5) -/

/-- A connection stream's id generator state: the next sequence id to
assign (a `uint64` counter, so kept below `2 ^ 64`) and the ids of the
`TransportPackage`s sent on this stream so far, in send order. -/
structure ConnStream where
  nextID : Nat
  sentIDs : List Nat
deriving DecidableEq, Repr

/-- A freshly opened connection stream. -/
def freshStream : ConnStream := { nextID := 0, sentIDs := [] }

/-- Modelled from the spec: the Dispatcher stamping the next
`TransportPackage` sent on a stream with the stream's sequence id (§4.6:
sequence ids are monotonic and unique per connection stream).  The `ID`
field is a `uint64`, so the counter advances modulo `2 ^ 64`. -/
def sendOnStream (s : ConnStream) : ConnStream :=
  { nextID := (s.nextID + 1) % 2 ^ 64, sentIDs := s.sentIDs ++ [s.nextID] }

/-! ### Whole-system view of the configuration (§3, §5) -/

/-- Events the pipeline components process: a record submission to the
Correlator, a health event on the pooled connection, or a Dispatcher step
(with the pool health view and send outcomes it observed). -/
inductive SysEvent where
  | submit (r : LogData) : SysEvent
  | health (e : HCEvent) : SysEvent
  | dispatch (pool : List Bool) (send : Nat → Bool) : SysEvent

/-- Modelled from the spec: the state shared by the pipeline components —
the process-wide `ClientConfig` loaded once at startup, plus the mutable
component state (Correlator groups, a pooled connection's health, a
package's dispatch state). -/
structure SystemState where
  cfg : ClientConfig
  groups : List LogGroup
  conn : Conn
  disp : DispState

/-- Modelled from the spec: one system step.  Each event is handled by the
corresponding component model; the configuration is only ever read (the
health threshold), never written (§3: `ClientConfig` is read-only after
load). -/
def systemStep (s : SystemState) : SysEvent → SystemState
  | .submit r => { s with groups := correlatorStep s.groups r }
  | .health e => { s with conn := hcStep s.cfg.HealthCheckFailureThreshold.toNat s.conn e }
  | .dispatch pool send => { s with disp := dispatchStep pool send s.disp }

/-- The configuration data the spec's §3/§6 boundary lists: lane sizes,
batch target size and interval, pool sizes, reset and health-check
intervals and thresholds, as read off a `ClientConfig`. -/
def configFieldView (c : ClientConfig) :
    (Int × Int × Int) × (Int × Int) × (Int × Int × Int × Int) × Int × (Int × Int) :=
  ((c.ChannelSize, c.HipriChannelSize, c.OverflowChannelSize),
   (c.TargetMessageBatchSize, c.SendBatchLogsInterval),
   (c.NumberOfConnections, c.NumberOfHiPriConnections,
    c.NumberOfBackupConnections, c.NumberOfHiPriBackupConnections),
   c.ConnectionResetInterval,
   (c.HealthCheckInterval, c.HealthCheckFailureThreshold))

/-- The fields of `ClientConfig` that lie beyond the configuration
boundary the spec lists in §3/§6, as any component holding the shared
configuration can read them. -/
def extendedConfigView (c : ClientConfig) : String × Int × String × String :=
  (c.ServerConfigGroup, c.RequestTrackingTimout, c.ProjectID, c.CredentialsFilePath)

/-! ### Log-level severity (model.go `Level*` constants) -/

/-- The four log levels named by the `Level*` constants, by their
documented meaning. -/
inductive LogLevel where
  | error : LogLevel
  | warn : LogLevel
  | info : LogLevel
  | debug : LogLevel
deriving DecidableEq, Repr, Fintype

/-- The byte value `model.go` assigns to each log level. -/
def LogLevel.code : LogLevel → Nat
  | .error => LevelError
  | .warn => LevelWarn
  | .info => LevelInfo
  | .debug => LevelDebug

/-- Domain severity rank of each level (higher = more severe): an error is
more severe than a warning, a warning than an info, an info than a debug
message.  Defined independently of the byte encoding. -/
def LogLevel.severity : LogLevel → Nat
  | .error => 3
  | .warn => 2
  | .info => 1
  | .debug => 0

/-- A concrete configuration used to instantiate theorems with hypotheses
on sample inputs. -/
def sampleConfig : ClientConfig :=
  { Enabled := true, AppName := "app", Level := LevelInfo, Endpoint := "ep",
    NumberOfConnections := 2, NumberOfHiPriConnections := 1,
    NumberOfBackupConnections := 1, NumberOfHiPriBackupConnections := 1,
    ConnectionResetInterval := 1000, ChannelSize := 2, OverflowChannelSize := 4,
    OverflowChannelLoggingLevel := LevelInfo, HipriLoggingLevel := LevelWarn,
    HipriChannelSize := 2, TargetMessageBatchSize := 10,
    SendBatchLogsInterval := 5000, CommonLabels := [], ServerConfigGroup := "g",
    ServerConfigName := "n", HealthCheckInterval := 2000,
    HealthCheckFailureThreshold := 2, RequestTrackingTimout := 30,
    ConnectionShutdownTimout := 7000, ProjectID := "p",
    CredentialsFilePath := "creds.json" }

/-- A concrete record correlated under id `a` (first submission). -/
def sampleRecA1 : LogData :=
  { Timestamp := 0, Level := LevelInfo, typ := LogTypeLog, Weight := 1,
    Message := "m1", Error := none, ContextMap := [],
    CorrelationData := some { CorrelationID := "a", Name := "n", Custom := [] },
    ContextMaps := [] }

/-- A concrete record correlated under id `b`. -/
def sampleRecB : LogData :=
  { Timestamp := 1, Level := LevelWarn, typ := LogTypeLog, Weight := 1,
    Message := "m2", Error := none, ContextMap := [],
    CorrelationData := some { CorrelationID := "b", Name := "n", Custom := [] },
    ContextMaps := [] }

/-- A concrete record correlated under id `a` (second submission). -/
def sampleRecA2 : LogData :=
  { Timestamp := 2, Level := LevelError, typ := LogTypeLog, Weight := 1,
    Message := "m3", Error := none, ContextMap := [],
    CorrelationData := some { CorrelationID := "a", Name := "n", Custom := [] },
    ContextMaps := [] }

/-- A concrete submission sequence used to instantiate theorems with
hypotheses on sample inputs. -/
def sampleRecs : List LogData := [sampleRecA1, sampleRecB, sampleRecA2]

/-- A concrete fresh `TransportPackage` used to instantiate theorems with
hypotheses on sample inputs. -/
def samplePackage : TransportPackage :=
  { ID := 0, typ := TransportPackageTypeLog,
    Data := .ofLogGroup { CorrelationData := none, Logs := [] },
    Payload := [], RetryCount := 0 }

/-! ## Helper lemmas -/

theorem systemStep_cfg (s : SystemState) (e : SysEvent) : (systemStep s e).cfg = s.cfg := by
  cases e <;> rfl

theorem sysRun_cfg (es : List SysEvent) (s : SystemState) :
    (es.foldl systemStep s).cfg = s.cfg := by
  induction es generalizing s with
  | nil => rfl
  | cons e es ih =>
    rw [List.foldl_cons, ih (systemStep s e), systemStep_cfg]

theorem guardedIncRetry_le (q : TransportPackage) (hq : q.RetryCount ≤ RetryCount) :
    (guardedIncRetry q).RetryCount ≤ RetryCount := by
  by_cases h : q.RetryCount < RetryCount
  · simp only [guardedIncRetry, h, if_pos, incRetry]
    unfold RetryCount at *
    rw [Nat.mod_eq_of_lt (by omega)]
    omega
  · simpa [guardedIncRetry, h] using hq

theorem guardedIncRetry_iter_le (q : TransportPackage) (hq : q.RetryCount ≤ RetryCount) :
    ∀ n, (guardedIncRetry^[n] q).RetryCount ≤ RetryCount := by
  intro n
  induction n with
  | zero => simpa using hq
  | succ n ih =>
    rw [Function.iterate_succ_apply']
    exact guardedIncRetry_le _ ih

/-! ## Claim theorems -/

/-- C8: the log-level constants assign smaller byte values to more severe
levels (`LevelError = 0`, `LevelWarn = 1`, `LevelInfo = 2`,
`LevelDebug = 3`); for every pair of levels the more severe one compares
numerically lower, so a classifier test `level ≥ threshold` admits exactly
the levels of equal or lesser severity than the threshold. -/
theorem level_constants_severity_inverted :
    LevelError = 0 ∧ LevelWarn = 1 ∧ LevelInfo = 2 ∧ LevelDebug = 3 ∧
    (∀ a b : LogLevel,
      LogLevel.severity b < LogLevel.severity a ↔ LogLevel.code a < LogLevel.code b) ∧
    (∀ l t : LogLevel,
      LogLevel.code t ≤ LogLevel.code l ↔ LogLevel.severity l ≤ LogLevel.severity t) :=
  ⟨rfl, rfl, rfl, rfl, by decide, by decide⟩

/-- C9: the `RetryCount` field of `TransportPackage` is a Go `byte`, so an
increment is arithmetic modulo 256; for a counter only incremented while
strictly below the constant `RetryCount = 3` the increment never wraps and
the counter stays in the range `0..3`. -/
theorem retry_byte_arithmetic (p : TransportPackage) (h : p.RetryCount < RetryCount) :
    ((incRetry p).RetryCount = p.RetryCount + 1) ∧
    ((incRetry p).RetryCount ≤ RetryCount) ∧
    (∀ q : TransportPackage, q.RetryCount = 0 →
      ∀ n, (guardedIncRetry^[n] q).RetryCount ≤ RetryCount) ∧
    RetryCount = 3 := by
  have hmod : (p.RetryCount + 1) % 256 = p.RetryCount + 1 := by
    unfold RetryCount at h
    exact Nat.mod_eq_of_lt (by omega)
  refine ⟨?_, ?_, ?_, rfl⟩
  · simpa [incRetry] using hmod
  · simp only [incRetry, hmod]
    unfold RetryCount at *
    omega
  · intro q hq n
    exact guardedIncRetry_iter_le q (by rw [hq]; exact Nat.zero_le _) n

/-- Witness for C9 at a concrete fresh package. -/
theorem retry_byte_arithmetic_witness :
    samplePackage.RetryCount < RetryCount ∧
    (((incRetry samplePackage).RetryCount = samplePackage.RetryCount + 1) ∧
     ((incRetry samplePackage).RetryCount ≤ RetryCount) ∧
     (∀ q : TransportPackage, q.RetryCount = 0 →
       ∀ n, (guardedIncRetry^[n] q).RetryCount ≤ RetryCount) ∧
     RetryCount = 3) :=
  ⟨by decide, retry_byte_arithmetic samplePackage (by decide)⟩

/-- C10: `ClientConfig` exposes `ServerConfigGroup`,
`RequestTrackingTimout`, `ProjectID` and `CredentialsFilePath` beyond the
spec's configuration boundary, and every component holding the shared
configuration can read all of them (the extended view reads back exactly
what was stored, and survives any sequence of pipeline steps). -/
theorem clientconfig_exposes_extended_fields :
    ("ServerConfigGroup" ∈ clientConfigFieldNames ∧
     "RequestTrackingTimout" ∈ clientConfigFieldNames ∧
     "ProjectID" ∈ clientConfigFieldNames ∧
     "CredentialsFilePath" ∈ clientConfigFieldNames) ∧
    (∀ (c : ClientConfig) (g p f : String) (t : Int),
      extendedConfigView { c with ServerConfigGroup := g, RequestTrackingTimout := t, ProjectID := p, CredentialsFilePath := f } = (g, t, p, f)) ∧
    (∀ (s : SystemState) (es : List SysEvent),
      extendedConfigView (es.foldl systemStep s).cfg = extendedConfigView s.cfg) :=
  ⟨by decide, fun _ _ _ _ _ => rfl, fun s es => by rw [sysRun_cfg]⟩

/-- C3: the Priority Classifier is a deterministic pure function of the
weighted level, the saturation of the target normal lane and the
`ClientConfig` thresholds: `hiPri` iff weighted level ≥
`HipriLoggingLevel`; otherwise `overflow` iff the normal lane is saturated
and level ≥ `OverflowChannelLoggingLevel`; otherwise `normal`; and two
calls with equal inputs return equal lane assignments. -/
theorem classifier_deterministic_thresholds (cfg : ClientConfig) (lvl : Nat) (sat : Bool) :
    (classify cfg lvl sat = .hiPri ↔ cfg.HipriLoggingLevel ≤ lvl) ∧
    (classify cfg lvl sat = .overflow ↔
      (¬ cfg.HipriLoggingLevel ≤ lvl ∧ sat = true ∧ cfg.OverflowChannelLoggingLevel ≤ lvl)) ∧
    (classify cfg lvl sat = .normal ↔
      (¬ cfg.HipriLoggingLevel ≤ lvl ∧ ¬ (sat = true ∧ cfg.OverflowChannelLoggingLevel ≤ lvl))) ∧
    (∀ (cfg2 : ClientConfig) (lvl2 : Nat) (sat2 : Bool),
      cfg = cfg2 → lvl = lvl2 → sat = sat2 →
      classify cfg lvl sat = classify cfg2 lvl2 sat2) := by
  refine ⟨?_, ?_, ?_, ?_⟩
  · by_cases h1 : cfg.HipriLoggingLevel ≤ lvl <;>
      by_cases hs : sat = true <;>
      by_cases h2 : cfg.OverflowChannelLoggingLevel ≤ lvl <;>
      simp [classify, h1, hs, h2]
  · by_cases h1 : cfg.HipriLoggingLevel ≤ lvl <;>
      by_cases hs : sat = true <;>
      by_cases h2 : cfg.OverflowChannelLoggingLevel ≤ lvl <;>
      simp [classify, h1, hs, h2]
  · by_cases h1 : cfg.HipriLoggingLevel ≤ lvl <;>
      by_cases hs : sat = true <;>
      by_cases h2 : cfg.OverflowChannelLoggingLevel ≤ lvl <;>
      simp [classify, h1, hs, h2]
  · intro cfg2 lvl2 sat2 hc hl hsat
    subst hc; subst hl; subst hsat; rfl

/-- Witness for C3 at a concrete configuration and input. -/
theorem classifier_deterministic_thresholds_witness :
    (classify sampleConfig 1 true = .hiPri ↔ sampleConfig.HipriLoggingLevel ≤ 1) ∧
    (classify sampleConfig 1 true = .overflow ↔
      (¬ sampleConfig.HipriLoggingLevel ≤ 1 ∧ true = true ∧ sampleConfig.OverflowChannelLoggingLevel ≤ 1)) ∧
    (classify sampleConfig 1 true = .normal ↔
      (¬ sampleConfig.HipriLoggingLevel ≤ 1 ∧ ¬ (true = true ∧ sampleConfig.OverflowChannelLoggingLevel ≤ 1))) ∧
    (∀ (cfg2 : ClientConfig) (lvl2 : Nat) (sat2 : Bool),
      sampleConfig = cfg2 → 1 = lvl2 → true = sat2 →
      classify sampleConfig 1 true = classify cfg2 lvl2 sat2) :=
  classifier_deterministic_thresholds sampleConfig 1 true

/-- C4: with `HealthCheckFailureThreshold = 2`, a connection becomes
Unhealthy exactly after its 2nd consecutive failed healthcheck — never
after the 1st — never returns to Healthy without an explicit reset
followed by a successful healthcheck (failures, successes and reset alone
leave it non-Healthy), and every successful healthcheck resets the
consecutive-failure count to zero. -/
theorem health_unhealthy_exactly_after_second_failure (c : Conn)
    (h0 : c.failures = 0) (hh : c.health ≠ .Unhealthy) :
    ((hcStep 2 c .checkFail).health ≠ .Unhealthy) ∧
    ((hcStep 2 (hcStep 2 c .checkFail) .checkFail).health = .Unhealthy) ∧
    (∀ d : Conn, (hcStep 2 d .checkSuccess).failures = 0) ∧
    (∀ d : Conn, d.health = .Unhealthy →
      (hcStep 2 d .checkFail).health = .Unhealthy ∧
      (hcStep 2 d .checkSuccess).health = .Unhealthy ∧
      (hcStep 2 d .reset).health ≠ .Healthy) ∧
    (∀ d : Conn, d.health = .Unhealthy →
      (hcStep 2 (hcStep 2 d .reset) .checkSuccess).health = .Healthy) := by
  obtain ⟨hst, hf⟩ := c
  simp only at h0 hh
  subst h0
  refine ⟨?_, ?_, ?_, ?_, ?_⟩
  · cases hst <;> first | exact absurd rfl hh | decide
  · cases hst <;> first | exact absurd rfl hh | decide
  · intro d
    obtain ⟨dst, df⟩ := d
    cases dst <;> simp [hcStep]
  · intro d hd
    obtain ⟨dst, df⟩ := d
    simp only at hd
    subst hd
    refine ⟨?_, ?_, ?_⟩
    · by_cases h2 : 2 ≤ df + 1 <;> simp [hcStep, h2]
    · simp [hcStep]
    · simp [hcStep]
  · intro d hd
    obtain ⟨dst, df⟩ := d
    simp only at hd
    subst hd
    simp [hcStep]

/-- Witness for C4 at a concrete fresh Healthy connection. -/
theorem health_unhealthy_exactly_after_second_failure_witness :
    ((⟨.Healthy, 0⟩ : Conn).failures = 0 ∧ (⟨.Healthy, 0⟩ : Conn).health ≠ .Unhealthy) ∧
    (((hcStep 2 ⟨.Healthy, 0⟩ .checkFail).health ≠ .Unhealthy) ∧
     ((hcStep 2 (hcStep 2 ⟨.Healthy, 0⟩ .checkFail) .checkFail).health = .Unhealthy) ∧
     (∀ d : Conn, (hcStep 2 d .checkSuccess).failures = 0) ∧
     (∀ d : Conn, d.health = .Unhealthy →
       (hcStep 2 d .checkFail).health = .Unhealthy ∧
       (hcStep 2 d .checkSuccess).health = .Unhealthy ∧
       (hcStep 2 d .reset).health ≠ .Healthy) ∧
     (∀ d : Conn, d.health = .Unhealthy →
       (hcStep 2 (hcStep 2 d .reset) .checkSuccess).health = .Healthy)) :=
  ⟨⟨rfl, by decide⟩,
   health_unhealthy_exactly_after_second_failure ⟨.Healthy, 0⟩ rfl (by decide)⟩

/-- C6 (counterexample to the claim as stated): the `ClientConfig` struct
has no delivery-method field — the `DeliveryMethod` field lives on
`ServerLoggingConfigs`. -/
theorem clientconfig_lacks_delivery_method :
    "DeliveryMethod" ∉ clientConfigFieldNames ∧
    "deliveryMethod" ∉ clientConfigFieldNames ∧
    "DeliveryMethod" ∈ serverLoggingConfigsFieldNames := by
  refine ⟨by decide, by decide, by decide⟩

/-- C6 (amended): `ClientConfig` contains fields covering lane sizes,
batch target size and interval, pool sizes, reset and health-check
intervals and thresholds — but not a delivery method, which is a field of
`ServerLoggingConfigs` — and it is read-only: no pipeline step mutates any
field of the loaded configuration. -/
theorem clientconfig_coverage_and_readonly :
    ("ChannelSize" ∈ clientConfigFieldNames ∧
     "HipriChannelSize" ∈ clientConfigFieldNames ∧
     "OverflowChannelSize" ∈ clientConfigFieldNames ∧
     "TargetMessageBatchSize" ∈ clientConfigFieldNames ∧
     "SendBatchLogsInterval" ∈ clientConfigFieldNames ∧
     "NumberOfConnections" ∈ clientConfigFieldNames ∧
     "NumberOfHiPriConnections" ∈ clientConfigFieldNames ∧
     "NumberOfBackupConnections" ∈ clientConfigFieldNames ∧
     "NumberOfHiPriBackupConnections" ∈ clientConfigFieldNames ∧
     "ConnectionResetInterval" ∈ clientConfigFieldNames ∧
     "HealthCheckInterval" ∈ clientConfigFieldNames ∧
     "HealthCheckFailureThreshold" ∈ clientConfigFieldNames) ∧
    "DeliveryMethod" ∉ clientConfigFieldNames ∧
    "DeliveryMethod" ∈ serverLoggingConfigsFieldNames ∧
    (∀ (c : ClientConfig) (a b d e f g h i j k l m : Int),
      configFieldView { c with ChannelSize := a, HipriChannelSize := b, OverflowChannelSize := d, TargetMessageBatchSize := e, SendBatchLogsInterval := f, NumberOfConnections := g, NumberOfHiPriConnections := h, NumberOfBackupConnections := i, NumberOfHiPriBackupConnections := j, ConnectionResetInterval := k, HealthCheckInterval := l, HealthCheckFailureThreshold := m } =
        ((a, b, d), (e, f), (g, h, i, j), k, (l, m))) ∧
    (∀ (s : SystemState) (es : List SysEvent), (es.foldl systemStep s).cfg = s.cfg) :=
  ⟨by decide, by decide, by decide,
   fun _ _ _ _ _ _ _ _ _ _ _ _ _ => rfl,
   fun s es => sysRun_cfg es s⟩

/-! ## Connection-selection and dispatch lemmas -/

theorem selectHealthy_eq_some {pool : List Bool} {start i : Nat}
    (h : selectHealthy pool start = some i) :
    i < pool.length ∧ pool.getD i false = true := by
  unfold selectHealthy at h
  have hp := List.find?_some h
  have hm := List.mem_of_find?_eq_some h
  rcases List.mem_map.mp hm with ⟨k, hk, hki⟩
  have hklen := List.mem_range.mp hk
  subst hki
  exact ⟨Nat.mod_lt _ (by omega), hp⟩

theorem selectHealthy_exists (pool : List Bool) (start : Nat)
    (h : ∃ j, j < pool.length ∧ pool.getD j false = true) :
    ∃ i, selectHealthy pool start = some i := by
  rcases h with ⟨j, hj, hhealthy⟩
  have hlen : 0 < pool.length := by omega
  have hk : (start + (pool.length - start % pool.length + j) % pool.length) % pool.length
      = j := by
    rw [Nat.add_mod_mod]
    have hle : start % pool.length ≤ start := Nat.mod_le _ _
    have hmodlt : start % pool.length < pool.length := Nat.mod_lt _ hlen
    have hdm : pool.length * (start / pool.length) + start % pool.length = start :=
      Nat.div_add_mod _ _
    have hmul : pool.length * (start / pool.length + 1)
        = pool.length * (start / pool.length) + pool.length := by ring
    have h2 : start + (pool.length - start % pool.length + j)
        = pool.length * (start / pool.length + 1) + j := by omega
    rw [h2, Nat.mul_add_mod]
    exact Nat.mod_eq_of_lt hj
  have hmem : j ∈ (List.range pool.length).map (fun k => (start + k) % pool.length) :=
    List.mem_map.mpr ⟨(pool.length - start % pool.length + j) % pool.length,
      List.mem_range.mpr (Nat.mod_lt _ hlen), hk⟩
  have hsome : (((List.range pool.length).map (fun k => (start + k) % pool.length)).find?
      (fun i => pool.getD i false)).isSome := by
    rw [List.find?_isSome]
    exact ⟨j, hmem, hhealthy⟩
  rcases Option.isSome_iff_exists.mp hsome with ⟨i, hi⟩
  exact ⟨i, hi⟩

theorem dispatchStep_terminal (pool : List Bool) (send : Nat → Bool) (s : DispState)
    (hph : s.phase ≠ .sending) : dispatchStep pool send s = s := by
  obtain ⟨pkg, ph, att, rr, used, cnt⟩ := s
  cases ph <;> simp_all [dispatchStep]

theorem dispatchStep_fail_requeue (pool : List Bool) (send : Nat → Bool) (s : DispState)
    (i : Nat) (hph : s.phase = .sending) (hsel : selectHealthy pool s.rr = some i)
    (hsend : send s.attempts = false)
    (hretry : (incRetry s.pkg).RetryCount < RetryCount) :
    dispatchStep pool send s =
      { s with
        pkg := incRetry s.pkg
        attempts := s.attempts + 1
        usedConns := s.usedConns ++ [i]
        rr := i + 1 } := by
  obtain ⟨pkg, ph, att, rr, used, cnt⟩ := s
  simp only at hph hsel hsend hretry
  subst hph
  simp [dispatchStep, hsel, hsend, hretry]

theorem dispatchStep_fail_exhaust (pool : List Bool) (send : Nat → Bool) (s : DispState)
    (i : Nat) (hph : s.phase = .sending) (hsel : selectHealthy pool s.rr = some i)
    (hsend : send s.attempts = false)
    (hretry : ¬ (incRetry s.pkg).RetryCount < RetryCount) :
    dispatchStep pool send s =
      { s with
        pkg := incRetry s.pkg
        attempts := s.attempts + 1
        usedConns := s.usedConns ++ [i]
        rr := i + 1
        phase := .exhausted
        countedRetriesExhausted := s.countedRetriesExhausted + 1 } := by
  obtain ⟨pkg, ph, att, rr, used, cnt⟩ := s
  simp only at hph hsel hsend hretry
  subst hph
  simp [dispatchStep, hsel, hsend, hretry]

theorem dispatchStep_retry_le (pool : List Bool) (send : Nat → Bool) (s : DispState)
    (h1 : s.pkg.RetryCount ≤ RetryCount)
    (h2 : s.phase = .sending → s.pkg.RetryCount < RetryCount) :
    (dispatchStep pool send s).pkg.RetryCount ≤ RetryCount ∧
    ((dispatchStep pool send s).phase = .sending →
      (dispatchStep pool send s).pkg.RetryCount < RetryCount) := by
  have hRC : RetryCount = 3 := rfl
  obtain ⟨pkg, ph, att, rr, used, cnt⟩ := s
  simp only at h1 h2
  cases ph
  case delivered => exact ⟨h1, h2⟩
  case exhausted => exact ⟨h1, h2⟩
  case noHealthy => exact ⟨h1, h2⟩
  case sending =>
    have hlt : pkg.RetryCount < RetryCount := h2 rfl
    have hlt3 : pkg.RetryCount < 3 := hRC ▸ hlt
    have hmod : (pkg.RetryCount + 1) % 256 = pkg.RetryCount + 1 :=
      Nat.mod_eq_of_lt (by omega)
    cases hsel : selectHealthy pool rr
    case none =>
      refine ⟨?_, ?_⟩
      · simpa [dispatchStep, hsel] using h1
      · simp [dispatchStep, hsel]
    case some i =>
      by_cases hsend : send att
      · refine ⟨?_, ?_⟩
        · simpa [dispatchStep, hsel, hsend] using h1
        · simp [dispatchStep, hsel, hsend]
      · by_cases hretry : (incRetry pkg).RetryCount < RetryCount
        · refine ⟨?_, ?_⟩
          · simpa [dispatchStep, hsel, hsend, hretry] using le_of_lt hretry
          · simp [dispatchStep, hsel, hsend, hretry]
        · have hle : (incRetry pkg).RetryCount ≤ RetryCount := by
            show (pkg.RetryCount + 1) % 256 ≤ RetryCount
            rw [hmod, hRC]
            omega
          refine ⟨?_, ?_⟩
          · simpa [dispatchStep, hsel, hsend, hretry] using hle
          · simp [dispatchStep, hsel, hsend, hretry]

theorem dispatch_retry_invariant (pool : List Bool) (send : Nat → Bool)
    (p : TransportPackage) (hp : p.RetryCount = 0) (n : Nat) :
    ((dispatchStep pool send)^[n] (dispInit p)).pkg.RetryCount ≤ RetryCount ∧
    (((dispatchStep pool send)^[n] (dispInit p)).phase = .sending →
      ((dispatchStep pool send)^[n] (dispInit p)).pkg.RetryCount < RetryCount) := by
  induction n with
  | zero =>
    constructor
    · simp [dispInit, hp]
    · intro _; simp [dispInit, hp, RetryCount]
  | succ n ih =>
    rw [Function.iterate_succ_apply']
    exact dispatchStep_retry_le pool send _ ih.1 ih.2

theorem dispatch_allfail_run (pool : List Bool) (p : TransportPackage)
    (hpool : ∃ j, j < pool.length ∧ pool.getD j false = true)
    (hp : p.RetryCount = 0) (n : Nat) :
    ((dispatchStep pool (fun _ => false))^[n] (dispInit p)).attempts = min n RetryCount ∧
    ((dispatchStep pool (fun _ => false))^[n] (dispInit p)).pkg.RetryCount = min n RetryCount ∧
    ((dispatchStep pool (fun _ => false))^[n] (dispInit p)).phase =
      (if n < RetryCount then DispPhase.sending else DispPhase.exhausted) ∧
    ((dispatchStep pool (fun _ => false))^[n] (dispInit p)).countedRetriesExhausted =
      (if n < RetryCount then 0 else 1) ∧
    (∀ i ∈ ((dispatchStep pool (fun _ => false))^[n] (dispInit p)).usedConns,
      i < pool.length ∧ pool.getD i false = true) := by
  have hRC : RetryCount = 3 := rfl
  induction n with
  | zero =>
    refine ⟨by simp [dispInit], by simp [dispInit, hp], ?_, ?_, by simp [dispInit]⟩
    · rw [if_pos (by rw [hRC]; omega)]
      rfl
    · rw [if_pos (by rw [hRC]; omega)]
      rfl
  | succ n ih =>
    obtain ⟨ih1, ih2, ih3, ih4, ih5⟩ := ih
    rw [Function.iterate_succ_apply']
    by_cases hn : n < RetryCount
    · have hph : ((dispatchStep pool (fun _ => false))^[n] (dispInit p)).phase = .sending := by
        rw [ih3, if_pos hn]
      have hmin : min n RetryCount = n := by rw [hRC] at *; omega
      obtain ⟨i, hsel⟩ :=
        selectHealthy_exists pool ((dispatchStep pool (fun _ => false))^[n] (dispInit p)).rr hpool
      obtain ⟨hil, hihome⟩ := selectHealthy_eq_some hsel
      have hmodinc :
          (incRetry ((dispatchStep pool (fun _ => false))^[n] (dispInit p)).pkg).RetryCount
            = n + 1 := by
        show (((dispatchStep pool (fun _ => false))^[n] (dispInit p)).pkg.RetryCount + 1) % 256
          = n + 1
        rw [ih2, hmin]
        exact Nat.mod_eq_of_lt (by rw [hRC] at hn; omega)
      by_cases hn1 : n + 1 < RetryCount
      · rw [dispatchStep_fail_requeue pool (fun _ => false) _ i hph hsel rfl
          (by rw [hmodinc]; exact hn1)]
        refine ⟨?_, ?_, ?_, ?_, ?_⟩
        · simp only
          rw [ih1, hmin, hRC] at *
          omega
        · simp only
          rw [hmodinc, hRC] at *
          omega
        · simp only
          rw [ih3, if_pos hn, if_pos hn1]
        · simp only
          rw [ih4, if_pos hn, if_pos hn1]
        · simp only
          intro k hk
          rcases List.mem_append.mp hk with hk1 | hk2
          · exact ih5 k hk1
          · rcases List.mem_singleton.mp hk2 with rfl
            exact ⟨hil, hihome⟩
      · rw [dispatchStep_fail_exhaust pool (fun _ => false) _ i hph hsel rfl
          (by rw [hmodinc]; exact hn1)]
        refine ⟨?_, ?_, ?_, ?_, ?_⟩
        · simp only
          rw [ih1, hmin, hRC] at *
          omega
        · simp only
          rw [hmodinc, hRC] at *
          omega
        · simp only
          rw [if_neg hn1]
        · simp only
          rw [ih4, if_pos hn, if_neg hn1]
        · simp only
          intro k hk
          rcases List.mem_append.mp hk with hk1 | hk2
          · exact ih5 k hk1
          · rcases List.mem_singleton.mp hk2 with rfl
            exact ⟨hil, hihome⟩
    · have hph : ((dispatchStep pool (fun _ => false))^[n] (dispInit p)).phase = .exhausted := by
        rw [ih3, if_neg hn]
      rw [dispatchStep_terminal pool (fun _ => false) _ (by rw [hph]; simp)]
      have hn1 : ¬ n + 1 < RetryCount := by rw [hRC] at *; omega
      have hmins : min (n + 1) RetryCount = min n RetryCount := by rw [hRC] at *; omega
      refine ⟨?_, ?_, ?_, ?_, ih5⟩
      · rw [ih1, hmins]
      · rw [ih2, hmins]
      · rw [ih3, if_neg hn, if_neg hn1]
      · rw [ih4, if_neg hn, if_neg hn1]

/-- C1: a package that fails every send attempt is sent `RetryCount = 3`
times in total — each attempt (the initial one and every re-queue) placed
on a Healthy connection of the same pool — and after the 3rd failed
attempt it is discarded with phase `exhausted` and counted once as
`ErrorRetriesExhausted`; the attempt counter never passes `RetryCount`, so
no 4th attempt ever occurs. -/
theorem dispatcher_retries_exhausted (pool : List Bool) (p : TransportPackage)
    (hpool : ∃ j, j < pool.length ∧ pool.getD j false = true)
    (hp : p.RetryCount = 0) :
    ((dispatchStep pool (fun _ => false))^[RetryCount] (dispInit p)).phase = .exhausted ∧
    ((dispatchStep pool (fun _ => false))^[RetryCount] (dispInit p)).attempts = RetryCount ∧
    ((dispatchStep pool (fun _ => false))^[RetryCount] (dispInit p)).countedRetriesExhausted
      = 1 ∧
    (∀ n, ((dispatchStep pool (fun _ => false))^[n] (dispInit p)).attempts ≤ RetryCount) ∧
    (∀ n, ∀ i ∈ ((dispatchStep pool (fun _ => false))^[n] (dispInit p)).usedConns,
      i < pool.length ∧ pool.getD i false = true) ∧
    RetryCount = 3 := by
  have hRC : RetryCount = 3 := rfl
  obtain ⟨h1, h2, h3, h4, h5⟩ := dispatch_allfail_run pool p hpool hp RetryCount
  refine ⟨?_, ?_, ?_, ?_, ?_, rfl⟩
  · rw [h3, if_neg (by omega)]
  · rw [h1]
    simp
  · rw [h4, if_neg (by omega)]
  · intro n
    obtain ⟨g1, _, _, _, _⟩ := dispatch_allfail_run pool p hpool hp n
    rw [g1]
    exact Nat.min_le_right n RetryCount
  · intro n
    obtain ⟨_, _, _, _, g5⟩ := dispatch_allfail_run pool p hpool hp n
    exact g5

/-- Witness for C1: a one-connection Healthy pool and a fresh package. -/
theorem dispatcher_retries_exhausted_witness :
    (∃ j, j < ([true] : List Bool).length ∧ [true].getD j false = true) ∧
    samplePackage.RetryCount = 0 ∧
    (((dispatchStep [true] (fun _ => false))^[RetryCount] (dispInit samplePackage)).phase
        = .exhausted ∧
     ((dispatchStep [true] (fun _ => false))^[RetryCount] (dispInit samplePackage)).attempts
        = RetryCount ∧
     ((dispatchStep [true] (fun _ => false))^[RetryCount]
        (dispInit samplePackage)).countedRetriesExhausted = 1 ∧
     (∀ n, ((dispatchStep [true] (fun _ => false))^[n] (dispInit samplePackage)).attempts
        ≤ RetryCount) ∧
     (∀ n, ∀ i ∈ ((dispatchStep [true] (fun _ => false))^[n]
        (dispInit samplePackage)).usedConns,
        i < ([true] : List Bool).length ∧ [true].getD i false = true) ∧
     RetryCount = 3) :=
  ⟨⟨0, by decide, by decide⟩, by decide,
   dispatcher_retries_exhausted [true] samplePackage ⟨0, by decide, by decide⟩ (by decide)⟩

/-- C2: through every step of a package's dispatch lifetime — any pool,
any send outcomes — the package's `RetryCount` field never exceeds the
constant `RetryCount`, and that constant equals 3. -/
theorem retry_field_never_exceeds_constant (pool : List Bool) (send : Nat → Bool)
    (p : TransportPackage) (hp : p.RetryCount = 0) (n : Nat) :
    ((dispatchStep pool send)^[n] (dispInit p)).pkg.RetryCount ≤ RetryCount ∧
    RetryCount = 3 :=
  ⟨(dispatch_retry_invariant pool send p hp n).1, rfl⟩

/-- Witness for C2 at a concrete pool, send sequence and fresh package. -/
theorem retry_field_never_exceeds_constant_witness :
    samplePackage.RetryCount = 0 ∧
    (((dispatchStep [true] (fun _ => false))^[2] (dispInit samplePackage)).pkg.RetryCount
        ≤ RetryCount ∧
     RetryCount = 3) :=
  ⟨by decide, retry_field_never_exceeds_constant [true] (fun _ => false) samplePackage
    (by decide) 2⟩

theorem stream_state : ∀ k, k ≤ 2 ^ 64 →
    sendOnStream^[k] freshStream = { nextID := k % 2 ^ 64, sentIDs := List.range k } := by
  intro k
  induction k with
  | zero => intro _; simp [freshStream]
  | succ k ih =>
    intro hk
    have hklt : k < 2 ^ 64 := by omega
    have hmod : k % 2 ^ 64 = k := Nat.mod_eq_of_lt hklt
    rw [Function.iterate_succ_apply', ih (by omega)]
    unfold sendOnStream
    rw [hmod, ← List.range_succ]

/-- C7: on a single connection stream the `ID` fields of successive
`TransportPackage`s are strictly increasing (for every stream lifetime of
at most `2 ^ 64` sends, the capacity of the `uint64` id counter), while
interleaving the packages of two distinct streams yields an id sequence
that is not strictly increasing. -/
theorem stream_ids_monotonic_per_stream (n : Nat) (h : n ≤ 2 ^ 64) :
    List.Chain' (· < ·) ((sendOnStream^[n] freshStream).sentIDs) ∧
    ¬ List.Chain' (· < ·)
      ((sendOnStream freshStream).sentIDs ++ (sendOnStream freshStream).sentIDs) := by
  constructor
  · rw [stream_state n h]
    exact (List.pairwise_lt_range n).chain'
  · have hs : (sendOnStream freshStream).sentIDs = [0] := rfl
    rw [hs]
    simp [List.chain'_cons]

/-- Witness for C7 at a three-send stream. -/
theorem stream_ids_monotonic_per_stream_witness :
    3 ≤ 2 ^ 64 ∧
    (List.Chain' (· < ·) ((sendOnStream^[3] freshStream).sentIDs) ∧
     ¬ List.Chain' (· < ·)
       ((sendOnStream freshStream).sentIDs ++ (sendOnStream freshStream).sentIDs)) :=
  ⟨by decide, stream_ids_monotonic_per_stream 3 (by decide)⟩

/-! ## Correlator lemmas -/

theorem hasCid_iff {c : String} {g : LogGroup} : hasCid c g = true ↔ groupCid g = some c := by
  simp [hasCid]

theorem hasCid_appendIfCid (c cid : String) (r : LogData) (g : LogGroup) :
    hasCid c (appendIfCid cid r g) = hasCid c g := by
  unfold appendIfCid
  split <;> simp [hasCid, groupCid]

theorem hasCid_false_of_ne {c cid : String} {g : LogGroup} (h : hasCid c g = true)
    (hne : cid ≠ c) : hasCid cid g = false := by
  simp only [hasCid, beq_iff_eq] at h ⊢
  rw [h]
  simp only [Option.some.injEq, beq_eq_false_iff_ne, Ne]
  exact fun hcc => hne hcc.symm

theorem countP_map_appendIfCid (c cid : String) (r : LogData) (gs : List LogGroup) :
    (gs.map (appendIfCid cid r)).countP (hasCid c) = gs.countP (hasCid c) := by
  induction gs with
  | nil => rfl
  | cons g tl ih => simp [List.countP_cons, hasCid_appendIfCid, ih]

theorem logsOf_nil (c : String) : logsOf c [] = [] := rfl

theorem logsOf_cons (c : String) (g : LogGroup) (gs : List LogGroup) :
    logsOf c (g :: gs) = if hasCid c g then g.Logs ++ logsOf c gs else logsOf c gs := rfl

theorem logsOf_append (c : String) (xs ys : List LogGroup) :
    logsOf c (xs ++ ys) = logsOf c xs ++ logsOf c ys := by
  induction xs with
  | nil => rfl
  | cons g tl ih =>
    rw [List.cons_append, logsOf_cons, logsOf_cons, ih]
    split <;> simp [List.append_assoc]

theorem logsOf_eq_nil_of_countP (c : String) (gs : List LogGroup)
    (h : gs.countP (hasCid c) = 0) : logsOf c gs = [] := by
  induction gs with
  | nil => rfl
  | cons g tl ih =>
    by_cases hg : hasCid c g
    · rw [List.countP_cons_of_pos _ _ hg] at h
      exact absurd h (by omega)
    · rw [List.countP_cons_of_neg _ _ hg] at h
      rw [logsOf_cons, if_neg hg]
      exact ih h

theorem logsOf_map_appendIfCid_ne (c cid : String) (r : LogData) (gs : List LogGroup)
    (hne : cid ≠ c) :
    logsOf c (gs.map (appendIfCid cid r)) = logsOf c gs := by
  induction gs with
  | nil => rfl
  | cons g tl ih =>
    rw [List.map_cons, logsOf_cons, logsOf_cons, hasCid_appendIfCid]
    by_cases hg : hasCid c g
    · have hgcid : hasCid cid g = false := hasCid_false_of_ne hg hne
      have hfix : appendIfCid cid r g = g := by
        unfold appendIfCid
        rw [hgcid]
        simp
      rw [if_pos hg, if_pos hg, ih, hfix]
    · rw [if_neg hg, if_neg hg, ih]

theorem logsOf_map_appendIfCid_eq (c : String) (r : LogData) (gs : List LogGroup)
    (h1 : gs.countP (hasCid c) = 1) :
    logsOf c (gs.map (appendIfCid c r)) = logsOf c gs ++ [r] := by
  induction gs with
  | nil => simp [List.countP_nil] at h1
  | cons g tl ih =>
    by_cases hg : hasCid c g
    · have htl : tl.countP (hasCid c) = 0 := by
        rw [List.countP_cons_of_pos _ _ hg] at h1
        omega
      rw [List.map_cons, logsOf_cons, logsOf_cons, hasCid_appendIfCid, if_pos hg, if_pos hg,
        logsOf_eq_nil_of_countP c tl htl,
        logsOf_eq_nil_of_countP c _ (by rw [countP_map_appendIfCid]; exact htl)]
      unfold appendIfCid
      rw [hg]
      simp
    · have htl : tl.countP (hasCid c) = 1 := by
        rw [List.countP_cons_of_neg _ _ hg] at h1
        exact h1
      rw [List.map_cons, logsOf_cons, logsOf_cons, hasCid_appendIfCid, if_neg hg, if_neg hg,
        ih htl]

theorem any_iff_countP_pos (gs : List LogGroup) (c : String) :
    gs.any (hasCid c) = true ↔ 0 < gs.countP (hasCid c) := by
  rw [List.any_eq_true, List.countP_pos_iff]

theorem correlatorStep_countP_eq (gs : List LogGroup) (r : LogData) (c : String)
    (hle : gs.countP (hasCid c) ≤ 1) (hr : recCid r = some c) :
    (correlatorStep gs r).countP (hasCid c) = 1 := by
  rcases hcd : r.CorrelationData with _ | cd
  · simp [recCid, hcd] at hr
  · have hcc : cd.CorrelationID = c := by
      simp [recCid, hcd] at hr
      exact hr
    subst hcc
    by_cases hany : gs.any (hasCid cd.CorrelationID)
    · have hpos := (any_iff_countP_pos gs cd.CorrelationID).mp hany
      simp only [correlatorStep, hcd, hany, if_pos]
      rw [countP_map_appendIfCid]
      omega
    · have hzero : gs.countP (hasCid cd.CorrelationID) = 0 := by
        by_contra hne
        exact hany ((any_iff_countP_pos gs cd.CorrelationID).mpr (by omega))
      simp only [correlatorStep, hcd, hany]
      rw [if_neg (by simp [hany]), List.countP_append, hzero]
      simp [List.countP_cons, hasCid, groupCid]

theorem correlatorStep_countP_ne (gs : List LogGroup) (r : LogData) (c : String)
    (hr : recCid r ≠ some c) :
    (correlatorStep gs r).countP (hasCid c) = gs.countP (hasCid c) := by
  rcases hcd : r.CorrelationData with _ | cd
  · simp only [correlatorStep, hcd]
    rw [List.countP_append]
    simp [List.countP_cons, hasCid, groupCid]
  · have hcc : cd.CorrelationID ≠ c := by
      intro hc
      exact hr (by simp [recCid, hcd, hc])
    by_cases hany : gs.any (hasCid cd.CorrelationID)
    · simp only [correlatorStep, hcd, hany, if_pos]
      rw [countP_map_appendIfCid]
    · simp only [correlatorStep, hcd]
      rw [if_neg (by simp [hany]), List.countP_append]
      have : hasCid c { CorrelationData := some cd, Logs := [r] } = false := by
        simp [hasCid, groupCid]
        intro hcc2
        exact absurd hcc2 hcc
      simp [List.countP_cons, this]

theorem correlatorStep_logsOf (gs : List LogGroup) (r : LogData) (c : String)
    (hle : gs.countP (hasCid c) ≤ 1) :
    logsOf c (correlatorStep gs r) =
      logsOf c gs ++ (if recCid r = some c then [r] else []) := by
  rcases hcd : r.CorrelationData with _ | cd
  · have hne : ¬ recCid r = some c := by simp [recCid, hcd]
    simp only [correlatorStep, hcd]
    rw [logsOf_append, if_neg hne, logsOf_cons, logsOf_nil]
    have : hasCid c { CorrelationData := none, Logs := [r] } = false := by
      simp [hasCid, groupCid]
    rw [this]
    simp
  · by_cases hcc : cd.CorrelationID = c
    · subst hcc
      have hrc : recCid r = some cd.CorrelationID := by simp [recCid, hcd]
      by_cases hany : gs.any (hasCid cd.CorrelationID)
      · have hpos := (any_iff_countP_pos gs cd.CorrelationID).mp hany
        have hone : gs.countP (hasCid cd.CorrelationID) = 1 := by omega
        simp only [correlatorStep, hcd, hany, if_pos]
        rw [logsOf_map_appendIfCid_eq cd.CorrelationID r gs hone, if_pos hrc]
      · simp only [correlatorStep, hcd]
        rw [if_neg (by simp [hany]), logsOf_append, if_pos hrc, logsOf_cons, logsOf_nil]
        have : hasCid cd.CorrelationID
            { CorrelationData := some cd, Logs := [r] } = true := by
          simp [hasCid, groupCid]
        rw [this]
        simp
    · have hne : ¬ recCid r = some c := by
        simp [recCid, hcd]
        exact hcc
      rw [if_neg hne]
      by_cases hany : gs.any (hasCid cd.CorrelationID)
      · simp only [correlatorStep, hcd, hany, if_pos]
        rw [logsOf_map_appendIfCid_ne c cd.CorrelationID r gs hcc, List.append_nil]
      · simp only [correlatorStep, hcd]
        rw [if_neg (by simp [hany]), logsOf_append, logsOf_cons, logsOf_nil]
        have : hasCid c { CorrelationData := some cd, Logs := [r] } = false := by
          simp [hasCid, groupCid]
          intro hcc2
          exact absurd hcc2 hcc
        rw [this]
        simp

theorem correlate_fold (recs : List LogData) : ∀ (gs : List LogGroup) (c : String),
    gs.countP (hasCid c) ≤ 1 →
    ((recs.foldl correlatorStep gs).countP (hasCid c) ≤ 1 ∧
     logsOf c (recs.foldl correlatorStep gs) =
       logsOf c gs ++ recs.filter (fun r => decide (recCid r = some c)) ∧
     ((0 < gs.countP (hasCid c) ∨ ∃ r ∈ recs, recCid r = some c) →
       (recs.foldl correlatorStep gs).countP (hasCid c) = 1)) := by
  induction recs with
  | nil =>
    intro gs c hle
    refine ⟨hle, by simp, ?_⟩
    rintro (hpos | ⟨r, hr, _⟩)
    · simp only [List.foldl_nil]
      omega
    · simp at hr
  | cons r recs ih =>
    intro gs c hle
    by_cases hr : recCid r = some c
    · have hc1 : (correlatorStep gs r).countP (hasCid c) = 1 :=
        correlatorStep_countP_eq gs r c hle hr
      obtain ⟨a1, a2, a3⟩ := ih (correlatorStep gs r) c (by omega)
      refine ⟨by simpa using a1, ?_, ?_⟩
      · rw [List.foldl_cons, a2, correlatorStep_logsOf gs r c hle, if_pos hr]
        simp [List.filter_cons, hr]
      · intro _
        rw [List.foldl_cons]
        exact a3 (Or.inl (by omega))
    · have hc2 := correlatorStep_countP_ne gs r c hr
      obtain ⟨a1, a2, a3⟩ := ih (correlatorStep gs r) c (by omega)
      refine ⟨by simpa using a1, ?_, ?_⟩
      · rw [List.foldl_cons, a2, correlatorStep_logsOf gs r c hle, if_neg hr]
        simp [List.filter_cons, hr]
      · rintro (hpos | ⟨r2, hr2, hcid⟩)
        · rw [List.foldl_cons]
          exact a3 (Or.inl (by omega))
        · rcases List.mem_cons.mp hr2 with rfl | hmem
          · exact absurd hcid hr
          · rw [List.foldl_cons]
            exact a3 (Or.inr ⟨r2, hmem, hcid⟩)

theorem logsOf_filter_self (c : String) (gs : List LogGroup) :
    logsOf c (gs.filter (hasCid c)) = logsOf c gs := by
  induction gs with
  | nil => rfl
  | cons g tl ih =>
    by_cases hg : hasCid c g
    · rw [List.filter_cons_of_pos hg, logsOf_cons, logsOf_cons, if_pos hg, if_pos hg, ih]
    · rw [List.filter_cons_of_neg (by simpa using hg), logsOf_cons, if_neg hg, ih]

/-- C5: all records sharing one correlation id submitted within the idle
window land in exactly one `LogGroup` (the group holding that
`CorrelationData`), and that group's `Logs` lists them in submission
order. -/
theorem correlator_single_group_in_order (recs : List LogData) (c : String)
    (h : ∃ r ∈ recs, recCid r = some c) :
    (correlate recs).countP (hasCid c) = 1 ∧
    (∃ g, (correlate recs).filter (hasCid c) = [g] ∧
      g.Logs = recs.filter (fun r => decide (recCid r = some c))) := by
  obtain ⟨a1, a2, a3⟩ := correlate_fold recs [] c (by simp)
  have hcount : (correlate recs).countP (hasCid c) = 1 := a3 (Or.inr h)
  refine ⟨hcount, ?_⟩
  have hlen : ((correlate recs).filter (hasCid c)).length = 1 := by
    rw [← List.countP_eq_length_filter]
    exact hcount
  rcases List.length_eq_one.mp hlen with ⟨g, hg⟩
  refine ⟨g, hg, ?_⟩
  have hmem : g ∈ (correlate recs).filter (hasCid c) := by
    rw [hg]
    exact List.mem_singleton_self g
  have hcg : hasCid c g = true := (List.mem_filter.mp hmem).2
  have hlogs : logsOf c (correlate recs)
      = recs.filter (fun r => decide (recCid r = some c)) := by
    show logsOf c (recs.foldl correlatorStep []) = _
    rw [a2, logsOf_nil]
    rfl
  rw [← hlogs, ← logsOf_filter_self, hg, logsOf_cons, if_pos hcg, logsOf_nil, List.append_nil]

/-- Witness for C5 at a concrete three-record submission sequence. -/
theorem correlator_single_group_in_order_witness :
    (∃ r ∈ sampleRecs, recCid r = some "a") ∧
    ((correlate sampleRecs).countP (hasCid "a") = 1 ∧
     (∃ g, (correlate sampleRecs).filter (hasCid "a") = [g] ∧
       g.Logs = sampleRecs.filter (fun r => decide (recCid r = some "a")))) :=
  ⟨by decide, correlator_single_group_in_order sampleRecs "a" (by decide)⟩

end Model
